import Mathlib

/-!
# Verification of the crawl-frontier Scrapy scheduler

Shallow embedding of `crawlfrontier/contrib/scrapy/schedulers/frontier.py`:
the `StatsManager` and the `CrawlFrontierScheduler` (admission, dispatch,
outcome reporting and lifecycle), together with proofs of the specified
properties.

Modelling conventions:
* A Scrapy `Request` is opaque except for its `meta['redirect_times']`
  entry, modelled as an `Option Int` (`none` = the key is absent), plus a
  numeric identity used to distinguish requests.
* The Scrapy stats collector is a total map `String → Int`; `inc_value`
  and `set_value` update one key.
* The frontier collaborator is modelled by its observable call trace
  (`frontier_calls`) plus its readable fields (`finished`, `iteration`)
  and a script `next_batches : List (List Request)` giving the successive
  return values of `get_next_requests()` (exhausted script = empty batch).
* The downloader capacity `crawler.engine.downloader.total_concurrency`
  is the field `total_concurrency`, read on every call as in the source.
* `exception.__class__.__name__` is modelled as `Option String` on the
  failure object (`none` = the attribute access itself raises, the
  `except` branch of `_get_exception_code`).
-/

namespace CrawlFrontier

/-- A Scrapy request: an identity plus the `meta['redirect_times']`
entry (`none` when the key is absent from `request.meta`). -/
structure Request where
  id : Nat
  redirect_times : Option Int
deriving DecidableEq, Repr

/-- A failure object; `className` is `exception.__class__.__name__`
(`none` when reading it raises). -/
structure Exc where
  className : Option String
deriving DecidableEq, Repr

/-- Observable calls made to the frontier collaborator. -/
inductive FrontierCall where
  | add_seeds (requests : List Request)
  | get_next_requests
  | page_crawled (status : Int) (links : List Request)
  | request_error (request : Request) (error : String)
  | start
  | stop (reason : String)
deriving DecidableEq, Repr

/-! ## StatsManager -/

def STATS_PREFIX : String := "crawlfrontier"

namespace StatsManager

/-- `StatsManager._get_stats_name`. -/
def _get_stats_name (var : String) : String :=
  STATS_PREFIX ++ "/" ++ var

/-- `StatsManager._inc_value`: `stats.inc_value(name, count)`. -/
def _inc_value (stats : String → Int) (var : String) (count : Int) :
    String → Int :=
  fun k => if k = _get_stats_name var then stats k + count else stats k

/-- `StatsManager._set_value`: `stats.set_value(name, value)`. -/
def _set_value (stats : String → Int) (var : String) (value : Int) :
    String → Int :=
  fun k => if k = _get_stats_name var then value else stats k

/-- `StatsManager.add_seeds(count)`. -/
def add_seeds (stats : String → Int) (count : Int) : String → Int :=
  _inc_value stats "seeds_count" count

/-- `StatsManager.add_redirected_requests(count)`. -/
def add_redirected_requests (stats : String → Int) (count : Int) : String → Int :=
  _inc_value stats "redirected_requests_count" count

/-- `StatsManager.add_returned_requests(count)`. -/
def add_returned_requests (stats : String → Int) (count : Int) : String → Int :=
  _inc_value stats "returned_requests_count" count

/-- `StatsManager.add_request_error(error_code)`: increments the total and
the per-kind counter. -/
def add_request_error (stats : String → Int) (error_code : String) : String → Int :=
  _inc_value (_inc_value stats "request_errors_count" 1)
    ("request_errors_count/" ++ error_code) 1

/-- `StatsManager.add_crawled_page(status_code, n_links)`. -/
def add_crawled_page (stats : String → Int) (status_code : Int) (n_links : Int) :
    String → Int :=
  _inc_value
    (_inc_value (_inc_value stats "crawled_pages_count" 1)
      ("crawled_pages_count/" ++ toString status_code) 1)
    "links_extracted_count" n_links

/-- `StatsManager.set_iterations(iterations)`. -/
def set_iterations (stats : String → Int) (iterations : Int) : String → Int :=
  _set_value stats "iterations" iterations

/-- `StatsManager.set_pending_requests(pending_requests)`. -/
def set_pending_requests (stats : String → Int) (pending_requests : Int) :
    String → Int :=
  _set_value stats "pending_requests_count" pending_requests

end StatsManager

/-! ## CrawlFrontierScheduler state -/

/-- The observable state of one `CrawlFrontierScheduler` together with its
collaborators: the pending deque, the `REDIRECT_ENABLED` setting, the
stats collector, the frontier call trace and readable fields, the scripted
`get_next_requests` batches, and the downloader capacity. -/
structure SchedulerState where
  pending_requests : List Request
  redirect_enabled : Bool
  stats : String → Int
  frontier_calls : List FrontierCall
  finished : Bool
  iteration : Int
  next_batches : List (List Request)
  total_concurrency : Nat

namespace Scheduler

/-- `_request_is_redirected`: `request.meta.get('redirect_times', 0) > 0`. -/
def _request_is_redirected (request : Request) : Bool :=
  request.redirect_times.getD 0 > 0

/-- `_get_exception_code`: `exception.__class__.__name__`, or `'?'` when
that access raises. -/
def _get_exception_code (exception : Exc) : String :=
  exception.className.getD "?"

/-- `__len__`: `len(self._pending_requests)`. -/
def len (s : SchedulerState) : Nat :=
  s.pending_requests.length

/-- `has_pending_requests`: `len(self) > 0`. -/
def has_pending_requests (s : SchedulerState) : Bool :=
  len s > 0

/-- `_add_pending_request`: `self._pending_requests.append(request)`. -/
def _add_pending_request (s : SchedulerState) (request : Request) : SchedulerState :=
  { s with pending_requests := s.pending_requests ++ [request] }

/-- `_get_pending_request`:
`self._pending_requests.popleft() if self._pending_requests else None`. -/
def _get_pending_request (s : SchedulerState) : Option Request × SchedulerState :=
  match s.pending_requests with
  | [] => (none, s)
  | r :: rest => (some r, { s with pending_requests := rest })

/-- `enqueue_request`: fresh requests go to the frontier as seeds; redirect
continuations go to the pending deque when `REDIRECT_ENABLED`, otherwise
they are rejected with `False` and no state change. -/
def enqueue_request (s : SchedulerState) (request : Request) :
    Bool × SchedulerState :=
  if ¬ _request_is_redirected request then
    (true, { s with
      frontier_calls := s.frontier_calls ++ [FrontierCall.add_seeds [request]],
      stats := StatsManager.add_seeds s.stats 1 })
  else if s.redirect_enabled then
    (true, { s with
      pending_requests := s.pending_requests ++ [request],
      stats := StatsManager.add_redirected_requests s.stats 1 })
  else
    (false, s)

/-- `_get_next_request`: refill from the frontier when it is not finished
and the deque holds fewer requests than the downloader capacity, then pop
the head of the deque (or `None`). -/
def _get_next_request (s : SchedulerState) : Option Request × SchedulerState :=
  let s1 :=
    if s.finished = false ∧ len s < s.total_concurrency then
      { s with
        frontier_calls := s.frontier_calls ++ [FrontierCall.get_next_requests],
        next_batches := s.next_batches.tail,
        pending_requests := s.pending_requests ++ s.next_batches.headD [] }
    else s
  _get_pending_request s1

/-- `next_request`: `_get_next_request`, counting returned requests. -/
def next_request (s : SchedulerState) : Option Request × SchedulerState :=
  match _get_next_request s with
  | (some r, s1) =>
      (some r, { s1 with stats := StatsManager.add_returned_requests s1.stats 1 })
  | (none, s1) => (none, s1)

/-- `process_exception`: classify the failure, report it to the frontier,
count the error. -/
def process_exception (s : SchedulerState) (request : Request) (exception : Exc) :
    SchedulerState :=
  let error_code := _get_exception_code exception
  { s with
    frontier_calls := s.frontier_calls ++ [FrontierCall.request_error request error_code],
    stats := StatsManager.add_request_error s.stats error_code }

/-- `close(reason)`: signal the frontier to stop, flush final stats
(iteration count, current deque length as pending count). The deque is
not touched. -/
def close (s : SchedulerState) (reason : String) : SchedulerState :=
  { s with
    frontier_calls := s.frontier_calls ++ [FrontierCall.stop reason],
    stats := StatsManager.set_pending_requests
      (StatsManager.set_iterations s.stats s.iteration)
      (Int.ofNat (len s)) }

end Scheduler

/-! ## Operation sequences -/

/-- A host-engine operation on a running scheduler. -/
inductive Op where
  | enqueue (request : Request)
  | next
  | procException (request : Request) (exception : Exc)
deriving DecidableEq, Repr

/-- One operation: the successor state and the (possibly empty) list of
requests dispatched to the host engine by this operation. -/
def runOp (s : SchedulerState) (op : Op) : SchedulerState × List Request :=
  match op with
  | Op.enqueue r => ((Scheduler.enqueue_request s r).2, [])
  | Op.next =>
      match Scheduler.next_request s with
      | (some r, s1) => (s1, [r])
      | (none, s1) => (s1, [])
  | Op.procException r e => (Scheduler.process_exception s r e, [])

/-- Run a sequence of operations, collecting the dispatched requests in
order. -/
def run (s : SchedulerState) (ops : List Op) : SchedulerState × List Request :=
  match ops with
  | [] => (s, [])
  | op :: rest =>
      let p := runOp s op
      let q := run p.1 rest
      (q.1, p.2 ++ q.2)

/-- The requests an operation appends to the pending deque, in deque
order: a redirect continuation admitted while enabled, or the batch pulled
from the frontier by a refilling `next()`. -/
def enteredOp (s : SchedulerState) (op : Op) : List Request :=
  match op with
  | Op.enqueue r =>
      if Scheduler._request_is_redirected r ∧ s.redirect_enabled then [r] else []
  | Op.next =>
      if s.finished = false ∧ Scheduler.len s < s.total_concurrency then
        s.next_batches.headD []
      else []
  | Op.procException _ _ => []

/-- All requests entering the pending deque over a sequence of operations,
in the order they entered. -/
def entered (s : SchedulerState) (ops : List Op) : List Request :=
  match ops with
  | [] => []
  | op :: rest => enteredOp s op ++ entered (runOp s op).1 rest

/-! ## Concrete sample collaborator states and requests -/

/-- The all-zero stats collector a fresh crawler starts from. -/
def stats0 : String → Int := fun _ => 0

/-- A scheduler as built by `__init__`: empty pending deque, fresh stats,
no frontier calls yet; parametrised by the `REDIRECT_ENABLED` setting, the
frontier's readable `finished` flag, its scripted batches, and the
downloader capacity. -/
def initialState (redirectEnabled : Bool) (finished : Bool)
    (batches : List (List Request)) (cap : Nat) : SchedulerState :=
  { pending_requests := []
    redirect_enabled := redirectEnabled
    stats := stats0
    frontier_calls := []
    finished := finished
    iteration := 0
    next_batches := batches
    total_concurrency := cap }

/-- A fresh request (`redirect_times` present and zero). -/
def reqSeed : Request := { id := 1, redirect_times := some 0 }

/-- A request whose `meta` has no `redirect_times` key at all. -/
def reqNoMeta : Request := { id := 2, redirect_times := none }

/-- A redirect continuation (`redirect_times = 1`). -/
def reqRedirect : Request := { id := 3, redirect_times := some 1 }

/-- The frontier batch requests `A`, `B`, `C` of the refill scenario. -/
def reqA : Request := { id := 10, redirect_times := some 0 }

/-- See `reqA`. -/
def reqB : Request := { id := 11, redirect_times := some 0 }

/-- See `reqA`. -/
def reqC : Request := { id := 12, redirect_times := some 0 }

/-- The refill scenario: downloader capacity 2, empty buffer, frontier not
finished and about to return `[A, B, C]`. -/
def state9 : SchedulerState := initialState true false [[reqA, reqB, reqC]] 2

/-! ## Admission (`enqueue_request`) -/

/-- C4: a redirect continuation (redirect-depth > 0) arriving while
`REDIRECT_ENABLED` is false is rejected: `enqueue_request` returns the
boolean `false` (not an exception) and the whole scheduler state — deque,
stats, frontier trace — is unchanged. -/
theorem claim_C4 (s : SchedulerState) (request : Request)
    (hred : Scheduler._request_is_redirected request = true)
    (hdis : s.redirect_enabled = false) :
    Scheduler.enqueue_request s request = (false, s) := by
  simp [Scheduler.enqueue_request, hred, hdis]

/-- Witness for C4: a depth-2 redirect rejected by a redirect-disabled
scheduler, leaving the state literally unchanged. -/
theorem claim_C4_witness :
    Scheduler._request_is_redirected { id := 5, redirect_times := some 2 } = true ∧
    (initialState false false [] 2).redirect_enabled = false ∧
    Scheduler.enqueue_request (initialState false false [] 2)
        { id := 5, redirect_times := some 2 } =
      (false, initialState false false [] 2) :=
  ⟨by decide, by decide,
    claim_C4 (initialState false false [] 2) { id := 5, redirect_times := some 2 }
      (by decide) (by decide)⟩

/-- C5: a request with redirect-depth 0 is always admitted: the result is
`true`, exactly one `add_seeds` frontier call carrying that single request
is made, the seed counter is incremented by exactly one, and the pending
deque is untouched. -/
theorem claim_C5 (s : SchedulerState) (request : Request)
    (hred : Scheduler._request_is_redirected request = false) :
    (Scheduler.enqueue_request s request).1 = true ∧
    (Scheduler.enqueue_request s request).2.frontier_calls =
      s.frontier_calls ++ [FrontierCall.add_seeds [request]] ∧
    (Scheduler.enqueue_request s request).2.stats
        (StatsManager._get_stats_name "seeds_count") =
      s.stats (StatsManager._get_stats_name "seeds_count") + 1 ∧
    (Scheduler.enqueue_request s request).2.pending_requests =
      s.pending_requests := by
  simp [Scheduler.enqueue_request, hred, StatsManager.add_seeds,
    StatsManager._inc_value]

/-- Witness for C5: a depth-0 request admitted as a seed. -/
theorem claim_C5_witness :
    Scheduler._request_is_redirected reqSeed = false ∧
    (Scheduler.enqueue_request (initialState true false [] 2) reqSeed).1 = true ∧
    (Scheduler.enqueue_request (initialState true false [] 2) reqSeed).2.frontier_calls =
      [FrontierCall.add_seeds [reqSeed]] := by
  refine ⟨by decide, (claim_C5 (initialState true false [] 2) reqSeed (by decide)).1, ?_⟩
  have h := (claim_C5 (initialState true false [] 2) reqSeed (by decide)).2.1
  simpa [initialState] using h

/-- C6: a redirect continuation admitted while `REDIRECT_ENABLED` is true:
the result is `true`, the request is appended at the tail of the pending
deque (size grows by exactly one), the redirected counter is incremented
by exactly one, and no frontier call is made. -/
theorem claim_C6 (s : SchedulerState) (request : Request)
    (hred : Scheduler._request_is_redirected request = true)
    (hen : s.redirect_enabled = true) :
    (Scheduler.enqueue_request s request).1 = true ∧
    (Scheduler.enqueue_request s request).2.pending_requests =
      s.pending_requests ++ [request] ∧
    Scheduler.len (Scheduler.enqueue_request s request).2 = Scheduler.len s + 1 ∧
    (Scheduler.enqueue_request s request).2.stats
        (StatsManager._get_stats_name "redirected_requests_count") =
      s.stats (StatsManager._get_stats_name "redirected_requests_count") + 1 ∧
    (Scheduler.enqueue_request s request).2.frontier_calls =
      s.frontier_calls := by
  simp [Scheduler.enqueue_request, hred, hen, Scheduler.len,
    StatsManager.add_redirected_requests, StatsManager._inc_value]

/-- Witness for C6: a depth-1 redirect pushed onto the deque while
redirects are enabled. -/
theorem claim_C6_witness :
    Scheduler._request_is_redirected reqRedirect = true ∧
    (initialState true false [] 2).redirect_enabled = true ∧
    (Scheduler.enqueue_request (initialState true false [] 2) reqRedirect).1 = true ∧
    (Scheduler.enqueue_request (initialState true false [] 2) reqRedirect).2.pending_requests =
      [reqRedirect] := by
  refine ⟨by decide, by decide,
    (claim_C6 (initialState true false [] 2) reqRedirect (by decide) (by decide)).1, ?_⟩
  have h := (claim_C6 (initialState true false [] 2) reqRedirect (by decide) (by decide)).2.1
  simpa [initialState] using h

/-- C10: a request whose `meta` carries no `redirect_times` entry at all is
classified with depth 0 and admitted as a fresh seed — `true` result, one
`add_seeds` frontier call, pending deque untouched — whatever the
`REDIRECT_ENABLED` setting. -/
theorem claim_C10 (s : SchedulerState) (request : Request)
    (hmeta : request.redirect_times = none) :
    Scheduler._request_is_redirected request = false ∧
    (Scheduler.enqueue_request s request).1 = true ∧
    (Scheduler.enqueue_request s request).2.frontier_calls =
      s.frontier_calls ++ [FrontierCall.add_seeds [request]] ∧
    (Scheduler.enqueue_request s request).2.pending_requests =
      s.pending_requests := by
  have hred : Scheduler._request_is_redirected request = false := by
    simp only [Scheduler._request_is_redirected, hmeta]
    decide
  refine ⟨hred, ?_, ?_, ?_⟩ <;> simp [Scheduler.enqueue_request, hred]

/-- Witness for C10: a request with no `redirect_times` key, admitted as a
seed even though redirects are enabled. -/
theorem claim_C10_witness :
    reqNoMeta.redirect_times = none ∧
    (Scheduler.enqueue_request (initialState true false [] 2) reqNoMeta).1 = true ∧
    (Scheduler.enqueue_request (initialState true false [] 2) reqNoMeta).2.frontier_calls =
      [FrontierCall.add_seeds [reqNoMeta]] := by
  refine ⟨by decide, (claim_C10 (initialState true false [] 2) reqNoMeta (by decide)).2.1, ?_⟩
  have h := (claim_C10 (initialState true false [] 2) reqNoMeta (by decide)).2.2.1
  simpa [initialState] using h

/-! ## Dispatch (`next_request`) -/

lemma _get_pending_request_fifo (s : SchedulerState) :
    (Scheduler._get_pending_request s).1.toList ++
      (Scheduler._get_pending_request s).2.pending_requests =
      s.pending_requests := by
  obtain ⟨pending, re, st, fc, fin, it, nb, tc⟩ := s
  cases pending <;> rfl

lemma _get_pending_request_fields (s : SchedulerState) :
    (Scheduler._get_pending_request s).2.frontier_calls = s.frontier_calls ∧
    (Scheduler._get_pending_request s).2.total_concurrency = s.total_concurrency ∧
    (Scheduler._get_pending_request s).2.next_batches = s.next_batches ∧
    (Scheduler._get_pending_request s).2.pending_requests.length ≤
      s.pending_requests.length := by
  obtain ⟨pending, re, st, fc, fin, it, nb, tc⟩ := s
  cases pending <;> simp [Scheduler._get_pending_request]

lemma next_request_eq (s : SchedulerState) :
    (Scheduler.next_request s).1 = (Scheduler._get_next_request s).1 ∧
    (Scheduler.next_request s).2.pending_requests =
      (Scheduler._get_next_request s).2.pending_requests ∧
    (Scheduler.next_request s).2.frontier_calls =
      (Scheduler._get_next_request s).2.frontier_calls ∧
    (Scheduler.next_request s).2.next_batches =
      (Scheduler._get_next_request s).2.next_batches ∧
    (Scheduler.next_request s).2.total_concurrency =
      (Scheduler._get_next_request s).2.total_concurrency := by
  rcases h : Scheduler._get_next_request s with ⟨r, s1⟩
  cases r <;> simp [Scheduler.next_request, h]

lemma _get_next_request_frontier_calls (s : SchedulerState) :
    (Scheduler._get_next_request s).2.frontier_calls =
      s.frontier_calls ++
        (if s.finished = false ∧ Scheduler.len s < s.total_concurrency then
          [FrontierCall.get_next_requests] else []) := by
  simp only [Scheduler._get_next_request]
  rw [(_get_pending_request_fields _).1]
  by_cases hc : s.finished = false ∧ Scheduler.len s < s.total_concurrency <;>
    simp [hc]

/-- C2: `next_request` makes the `get_next_requests` frontier call exactly
when the frontier is not finished and the deque holds strictly fewer
requests than the downloader capacity, and otherwise makes no frontier
call at all — in particular never when `finished` is true and never when
the deque is at or above capacity. -/
theorem claim_C2 (s : SchedulerState) :
    (Scheduler.next_request s).2.frontier_calls =
      s.frontier_calls ++
        (if s.finished = false ∧ Scheduler.len s < s.total_concurrency then
          [FrontierCall.get_next_requests] else []) := by
  rw [(next_request_eq s).2.2.1, _get_next_request_frontier_calls]

/-- C9: capacity 2, empty deque, frontier not finished and returning
`[A, B, C]`: one `next_request` call pulls the whole batch (even past the
capacity), returns `A`, leaves `[B, C]` buffered in order, and sets the
returned counter to exactly 1. -/
theorem claim_C9 :
    (Scheduler.next_request state9).1 = some reqA ∧
    (Scheduler.next_request state9).2.pending_requests = [reqB, reqC] ∧
    (Scheduler.next_request state9).2.stats
        (StatsManager._get_stats_name "returned_requests_count") = 1 ∧
    (Scheduler.next_request state9).2.frontier_calls =
      [FrontierCall.get_next_requests] := by
  refine ⟨?_, ?_, ?_, ?_⟩ <;> decide

/-! ## Lifecycle (`close`) -/

/-- C1 as stated is false on the code: `close` does not drain the pending
deque, so on a scheduler that buffered one redirect continuation, `__len__`
after `close` is not 0. -/
theorem claim_C1_counterexample :
    Scheduler.len
      (Scheduler.close
        (run (initialState true false [] 2) [Op.enqueue reqRedirect]).1
        "finished") ≠ 0 := by
  decide

/-- C1 amended: `close(reason)` leaves the pending deque untouched — after
`close`, `__len__` returns exactly the pre-`close` deque length and the
buffered requests are still there; they are not returned to the frontier
(the only frontier call `close` makes is the `stop` signal), and the final
`pending_requests_count` stat records that leftover length. -/
theorem claim_C1_amended (s : SchedulerState) (reason : String) :
    (Scheduler.close s reason).pending_requests = s.pending_requests ∧
    Scheduler.len (Scheduler.close s reason) = Scheduler.len s ∧
    (Scheduler.close s reason).frontier_calls =
      s.frontier_calls ++ [FrontierCall.stop reason] ∧
    (Scheduler.close s reason).stats
        (StatsManager._get_stats_name "pending_requests_count") =
      Int.ofNat (Scheduler.len s) := by
  refine ⟨rfl, rfl, rfl, ?_⟩
  simp [Scheduler.close, StatsManager.set_pending_requests,
    StatsManager._set_value]

/-! ## Outcome reporting (`process_exception`) -/

lemma request_error_keys_ne (ec : String) :
    StatsManager._get_stats_name "request_errors_count" ≠
      StatsManager._get_stats_name ("request_errors_count/" ++ ec) := by
  intro h
  have h2 := congrArg String.length h
  simp only [StatsManager._get_stats_name, STATS_PREFIX,
    String.length_append] at h2
  have e1 : ("request_errors_count" : String).length = 20 := rfl
  have e2 : ("request_errors_count/" : String).length = 21 := rfl
  rw [e1, e2] at h2
  omega

/-- C7: `process_exception` classifies totally — a failure with a readable
class name is reported under that name, one whose class name cannot be
read is reported under the literal `"?"` — and in both cases exactly one
`request_error` frontier call is made and both the total and the per-kind
error counters are incremented by exactly one. -/
theorem claim_C7 (s : SchedulerState) (request : Request) (exception : Exc) :
    (Scheduler.process_exception s request exception).frontier_calls =
      s.frontier_calls ++
        [FrontierCall.request_error request
          (Scheduler._get_exception_code exception)] ∧
    (Scheduler.process_exception s request exception).stats
        (StatsManager._get_stats_name "request_errors_count") =
      s.stats (StatsManager._get_stats_name "request_errors_count") + 1 ∧
    (Scheduler.process_exception s request exception).stats
        (StatsManager._get_stats_name
          ("request_errors_count/" ++ Scheduler._get_exception_code exception)) =
      s.stats
        (StatsManager._get_stats_name
          ("request_errors_count/" ++ Scheduler._get_exception_code exception)) + 1 ∧
    (∀ c, Scheduler._get_exception_code { className := some c } = c) ∧
    Scheduler._get_exception_code { className := none } = "?" := by
  have hne := request_error_keys_ne (Scheduler._get_exception_code exception)
  refine ⟨rfl, ?_, ?_, fun c => rfl, rfl⟩ <;>
    simp [Scheduler.process_exception, StatsManager.add_request_error,
      StatsManager._inc_value, hne, Ne.symm hne]

/-! ## FIFO dispatch order -/

lemma next_request_fifo (s : SchedulerState) :
    (Scheduler.next_request s).1.toList ++
      (Scheduler.next_request s).2.pending_requests =
      s.pending_requests ++ enteredOp s Op.next := by
  rw [(next_request_eq s).1, (next_request_eq s).2.1]
  simp only [Scheduler._get_next_request]
  rw [_get_pending_request_fifo]
  by_cases hc : s.finished = false ∧ Scheduler.len s < s.total_concurrency <;>
    simp [enteredOp, hc]

lemma runOp_fifo (s : SchedulerState) (op : Op) :
    (runOp s op).2 ++ (runOp s op).1.pending_requests =
      s.pending_requests ++ enteredOp s op := by
  cases op with
  | enqueue r =>
      simp only [runOp, enteredOp, List.nil_append]
      by_cases hr : Scheduler._request_is_redirected r = true
      · by_cases he : s.redirect_enabled = true
        · simp [Scheduler.enqueue_request, hr, he]
        · simp [Scheduler.enqueue_request, hr, he]
      · simp [Scheduler.enqueue_request, hr]
  | next =>
      have hf := next_request_fifo s
      rcases h : Scheduler.next_request s with ⟨r, s1⟩
      rw [h] at hf
      cases r <;> simp only [runOp, h] <;> simpa using hf
  | procException r e =>
      simp [runOp, Scheduler.process_exception, enteredOp]

/-- C3: FIFO dispatch. Over any interleaved sequence of admissions,
refilling `next_request` calls and error reports, the requests dispatched
by `next_request`, followed by what is still buffered, are exactly the
initial deque contents followed by every request that entered the deque —
enabled redirect continuations at their admission point and each frontier
refill batch, in frontier order, at its refill point. Hence dispatch order
is exactly entry order, and redirect continuations admitted before a
refill dispatch ahead of the refilled frontier requests. -/
theorem claim_C3 (s : SchedulerState) (ops : List Op) :
    (run s ops).2 ++ (run s ops).1.pending_requests =
      s.pending_requests ++ entered s ops := by
  induction ops generalizing s with
  | nil => simp [run, entered]
  | cons op rest ih =>
      simp only [run, entered]
      rw [List.append_assoc, ih (runOp s op).1, ← List.append_assoc,
        runOp_fifo, List.append_assoc]

/-! ## The pending-deque size bound -/

lemma next_request_batches_bound (B : Nat) (s : SchedulerState)
    (hB : ∀ b ∈ s.next_batches, b.length ≤ B) :
    ∀ b ∈ (Scheduler.next_request s).2.next_batches, b.length ≤ B := by
  rw [(next_request_eq s).2.2.2.1]
  simp only [Scheduler._get_next_request]
  rw [(_get_pending_request_fields _).2.2.1]
  by_cases hc : s.finished = false ∧ Scheduler.len s < s.total_concurrency
  · simp only [if_pos hc]
    intro b hb
    exact hB b (List.mem_of_mem_tail hb)
  · simpa [hc] using hB

lemma next_request_cap (s : SchedulerState) :
    (Scheduler.next_request s).2.total_concurrency = s.total_concurrency := by
  rw [(next_request_eq s).2.2.2.2]
  simp only [Scheduler._get_next_request]
  rw [(_get_pending_request_fields _).2.1]
  by_cases hc : s.finished = false ∧ Scheduler.len s < s.total_concurrency <;>
    simp [hc]

lemma next_request_len (B : Nat) (s : SchedulerState)
    (hB : ∀ b ∈ s.next_batches, b.length ≤ B)
    (hlen : Scheduler.len s ≤ s.total_concurrency + B) :
    Scheduler.len (Scheduler.next_request s).2 ≤ s.total_concurrency + B := by
  have hpend := (next_request_eq s).2.1
  simp only [Scheduler._get_next_request] at hpend
  have hbatch : (s.next_batches.headD []).length ≤ B := by
    cases hnb : s.next_batches with
    | nil => simp
    | cons b bs => simpa using hB b (by simp [hnb])
  by_cases hc : s.finished = false ∧ Scheduler.len s < s.total_concurrency
  · rw [if_pos hc] at hpend
    have hpop := (_get_pending_request_fields
      { s with
        frontier_calls := s.frontier_calls ++ [FrontierCall.get_next_requests],
        next_batches := s.next_batches.tail,
        pending_requests := s.pending_requests ++ s.next_batches.headD [] }).2.2.2
    rw [← hpend] at hpop
    simp only [List.length_append] at hpop
    have := hc.2
    simp only [Scheduler.len] at *
    omega
  · rw [if_neg hc] at hpend
    have hpop := (_get_pending_request_fields s).2.2.2
    rw [← hpend] at hpop
    simp only [Scheduler.len] at *
    omega

lemma runOp_bound (B : Nat) (s : SchedulerState) (op : Op)
    (hB : ∀ b ∈ s.next_batches, b.length ≤ B)
    (hlen : Scheduler.len s ≤ s.total_concurrency + B)
    (hop : ∀ r, op = Op.enqueue r → Scheduler._request_is_redirected r = false) :
    (∀ b ∈ (runOp s op).1.next_batches, b.length ≤ B) ∧
    (runOp s op).1.total_concurrency = s.total_concurrency ∧
    Scheduler.len (runOp s op).1 ≤ s.total_concurrency + B := by
  cases op with
  | enqueue r =>
      have hr := hop r rfl
      refine ⟨?_, ?_, ?_⟩
      · simpa [runOp, Scheduler.enqueue_request, hr] using hB
      · simp [runOp, Scheduler.enqueue_request, hr]
      · simpa [runOp, Scheduler.enqueue_request, hr, Scheduler.len] using hlen
  | next =>
      have hnb : (runOp s Op.next).1.next_batches =
          (Scheduler.next_request s).2.next_batches := by
        rcases h : Scheduler.next_request s with ⟨r, s1⟩
        cases r <;> simp [runOp, h]
      have hcap : (runOp s Op.next).1.total_concurrency =
          (Scheduler.next_request s).2.total_concurrency := by
        rcases h : Scheduler.next_request s with ⟨r, s1⟩
        cases r <;> simp [runOp, h]
      have hpen : (runOp s Op.next).1.pending_requests =
          (Scheduler.next_request s).2.pending_requests := by
        rcases h : Scheduler.next_request s with ⟨r, s1⟩
        cases r <;> simp [runOp, h]
      refine ⟨?_, ?_, ?_⟩
      · rw [hnb]
        exact next_request_batches_bound B s hB
      · rw [hcap]
        exact next_request_cap s
      · show (runOp s Op.next).1.pending_requests.length ≤ _
        rw [hpen]
        exact next_request_len B s hB hlen
  | procException r e =>
      refine ⟨?_, ?_, ?_⟩
      · simpa [runOp, Scheduler.process_exception] using hB
      · simp [runOp, Scheduler.process_exception]
      · simpa [runOp, Scheduler.process_exception, Scheduler.len] using hlen

/-- C8 as stated is false on the code: admitted redirect continuations are
pushed with no capacity check, so a scheduler with capacity 1 and an empty
frontier script (every batch bounded by 0) exceeds capacity-plus-one-batch
after three redirect admissions. -/
theorem claim_C8_counterexample :
    (∀ b ∈ (initialState true false [] 1).next_batches, b.length ≤ 0) ∧
    Scheduler.len
        (run (initialState true false [] 1)
          [Op.enqueue reqRedirect, Op.enqueue reqRedirect,
            Op.enqueue reqRedirect]).1 >
      (initialState true false [] 1).total_concurrency + 0 := by
  constructor
  · intro b hb
    simp [initialState] at hb
  · decide

/-- C8 amended: the capacity-plus-one-batch bound holds for every
operation sequence that pushes nothing through the redirect path — seed
admissions, dispatches and error reports. If every scripted frontier batch
has length at most `B` and the deque starts within
`total_concurrency + B`, it stays within `total_concurrency + B`: a refill
only fires when the deque is strictly below capacity and adds at most one
batch. Redirect admissions are exempt from the bound. -/
theorem claim_C8_amended (B : Nat) (s : SchedulerState) (ops : List Op)
    (hB : ∀ b ∈ s.next_batches, b.length ≤ B)
    (hlen : Scheduler.len s ≤ s.total_concurrency + B)
    (hops : ∀ r, Op.enqueue r ∈ ops → Scheduler._request_is_redirected r = false) :
    Scheduler.len (run s ops).1 ≤ s.total_concurrency + B := by
  induction ops generalizing s with
  | nil => simpa [run] using hlen
  | cons op rest ih =>
      have hstep := runOp_bound B s op hB hlen
        (fun r hr => hops r (by simp [hr]))
      have htail := ih (runOp s op).1 hstep.1
        (by rw [hstep.2.1]; exact hstep.2.2)
        (fun r hr => hops r (by simp [hr]))
      rw [hstep.2.1] at htail
      simpa [run] using htail

/-- Witness for C8 amended: capacity 1, batches of size at most 1, two
dispatch calls — the deque stays within capacity + 1. -/
theorem claim_C8_amended_witness :
    (∀ b ∈ (initialState true false [[reqA], [reqB]] 1).next_batches,
      b.length ≤ 1) ∧
    Scheduler.len (run (initialState true false [[reqA], [reqB]] 1)
        [Op.next, Op.next]).1 ≤
      (initialState true false [[reqA], [reqB]] 1).total_concurrency + 1 := by
  refine ⟨by decide, ?_⟩
  exact claim_C8_amended 1 (initialState true false [[reqA], [reqB]] 1)
    [Op.next, Op.next] (by decide) (by decide)
    (by intro r hr; simp at hr)

end CrawlFrontier
